import Mathlib

set_option maxRecDepth 1000000
set_option maxHeartbeats 2000000

/-!
Verification of the TVA-Protocol translation engine (Ethereum ↔ Soroban
gateway).  The definitions below are a shallow embedding of the Rust
sources under `src/rpc/src/translator/` (`scval.rs`, `abi.rs`, `tx.rs`):
bytes are `Nat` values below 256 collected in lists, machine integers are
`Nat`/`Int` with explicit reduction modulo `2^w` where the Rust code
relies on fixed-width behaviour, and fallible Rust functions return
`Except`/`Option`.
-/

namespace TVA

/-- Constant 2^64, the modulus of Rust `u64`/`usize` arithmetic. -/
def U64MOD : Nat := 18446744073709551616

/-- Constant 2^32. -/
def U32MOD : Nat := 4294967296

/-- Constant 2^128. -/
def U128MOD : Nat := 340282366920938463463374607431768211456

/-! ## Keccak-256 (as used by the `sha3` crate type `Keccak256`)

The transaction decoder and the selector computation both call
`Keccak256::digest`.  We embed the Keccak-f[1600] permutation and the
sponge with rate 136 and original Keccak padding (0x01 … 0x80), which is
what `Keccak256` implements. -/

/-- Rotate a 64-bit word left by `n` (0 ≤ n < 64). -/
def rotl64 (x n : Nat) : Nat :=
  (((x % U64MOD) <<< n) ||| ((x % U64MOD) >>> (64 - n))) % U64MOD

/-- Keccak round constants for the ι step. -/
def keccakRC : List Nat :=
  [0x0000000000000001, 0x0000000000008082, 0x800000000000808a, 0x8000000080008000,
   0x000000000000808b, 0x0000000080000001, 0x8000000080008081, 0x8000000000008009,
   0x000000000000008a, 0x0000000000000088, 0x0000000080008009, 0x000000008000000a,
   0x000000008000808b, 0x800000000000008b, 0x8000000000008089, 0x8000000000008003,
   0x8000000000008002, 0x8000000000000080, 0x000000000000800a, 0x800000008000000a,
   0x8000000080008081, 0x8000000000008080, 0x0000000080000001, 0x8000000080008008]

/-- For destination lane `j`, the source lane of the combined ρ+π step. -/
def piSource : List Nat :=
  [0, 6, 12, 18, 24, 3, 9, 10, 16, 22, 1, 7, 13, 19, 20,
   4, 5, 11, 17, 23, 2, 8, 14, 15, 21]

/-- For destination lane `j`, the ρ rotation of its source lane (the
standard source-indexed offsets reordered along `piSource`). -/
def rhoByDest : List Nat :=
  [0, 44, 43, 21, 14, 28, 20, 3, 45, 61, 1, 6, 25, 8, 18,
   27, 36, 10, 15, 56, 62, 55, 39, 41, 2]

/-- The θ step of Keccak-f. -/
def keccakTheta (A : List Nat) : List Nat :=
  let C := (List.range 5).map (fun x =>
    (A.getD x 0) ^^^ (A.getD (x + 5) 0) ^^^ (A.getD (x + 10) 0) ^^^
    (A.getD (x + 15) 0) ^^^ (A.getD (x + 20) 0))
  let D := (List.range 5).map (fun x =>
    (C.getD ((x + 4) % 5) 0) ^^^ rotl64 (C.getD ((x + 1) % 5) 0) 1)
  (List.range 25).map (fun i => (A.getD i 0) ^^^ (D.getD (i % 5) 0))

/-- Combined ρ and π steps. -/
def keccakRhoPi (A : List Nat) : List Nat :=
  (List.range 25).map (fun j =>
    rotl64 (A.getD (piSource.getD j 0) 0) (rhoByDest.getD j 0))

/-- The χ step. -/
def keccakChi (B : List Nat) : List Nat :=
  (List.range 25).map (fun j =>
    let x := j % 5
    let y := j / 5
    (B.getD j 0) ^^^
      (((B.getD ((x + 1) % 5 + 5 * y) 0) ^^^ (U64MOD - 1)) &&&
        (B.getD ((x + 2) % 5 + 5 * y) 0)))

/-- One Keccak-f round: θ, ρ, π, χ, ι with round constant `rc`. -/
def keccakRound (A : List Nat) (rc : Nat) : List Nat :=
  let B := keccakChi (keccakRhoPi (keccakTheta A))
  ((B.getD 0 0) ^^^ rc) :: B.tail

/-- The full Keccak-f[1600] permutation (24 rounds). -/
def keccakF (A : List Nat) : List Nat :=
  keccakRC.foldl keccakRound A

/-- Pad a message with the original Keccak pad10*1 (domain byte 0x01). -/
def keccakPad (msg : List Nat) : List Nat :=
  let padLen := 136 - msg.length % 136
  if padLen = 1 then msg ++ [0x81]
  else msg ++ 0x01 :: List.replicate (padLen - 2) 0 ++ [0x80]

/-- Interpret up to 8 bytes as a little-endian 64-bit lane. -/
def bytesToLane (bs : List Nat) : Nat :=
  bs.foldr (fun b acc => acc * 256 + b % 256) 0

/-- Emit a 64-bit lane as 8 little-endian bytes. -/
def laneToBytes (x : Nat) : List Nat :=
  (List.range 8).map (fun i => (x >>> (8 * i)) % 256)

/-- XOR a 136-byte block into the first 17 lanes and permute. -/
def absorbBlock (st block : List Nat) : List Nat :=
  let lanes := (block.toChunks 8).map bytesToLane
  keccakF ((List.range 25).map (fun i =>
    if i < 17 then (st.getD i 0) ^^^ (lanes.getD i 0) else st.getD i 0))

/-- Keccak-256 digest of a byte sequence (32 bytes). -/
def keccak256 (msg : List Nat) : List Nat :=
  let final := ((keccakPad msg).toChunks 136).foldl absorbBlock (List.replicate 25 0)
  ((final.take 4).map laneToBytes).flatten

/-! ## Big-endian byte helpers

`u32be`/`u64be` embed the Rust `uN::to_be_bytes` conversions (applied after the implicit
`as uN` truncation the source performs on lengths and offsets); `readBE`
reads bytes back as a big-endian natural number. -/

/-- Big-endian value of a byte list. -/
def readBE (bs : List Nat) : Nat :=
  bs.foldl (fun acc b => acc * 256 + b % 256) 0

/-- Embeds `(v as u32).to_be_bytes()`. -/
def u32be (v : Nat) : List Nat :=
  [v % U32MOD / 16777216, v % U32MOD / 65536 % 256, v % U32MOD / 256 % 256,
   v % U32MOD % 256]

/-- Embeds `(v as u64).to_be_bytes()`. -/
def u64be (v : Nat) : List Nat :=
  [v % U64MOD / 72057594037927936,
   v % U64MOD / 281474976710656 % 256,
   v % U64MOD / 1099511627776 % 256,
   v % U64MOD / 4294967296 % 256,
   v % U64MOD / 16777216 % 256,
   v % U64MOD / 65536 % 256,
   v % U64MOD / 256 % 256,
   v % U64MOD % 256]

/-- Twos-complement residue of an `iN` value: `v mod 2^w` as a `Nat`. -/
def tc (w : Nat) (v : Int) : Nat := (v % ((2 : Int) ^ w)).toNat

/-- Embeds `i32::to_be_bytes`. -/
def i32be (v : Int) : List Nat := u32be (tc 32 v)

/-- Embeds `i64::to_be_bytes`. -/
def i64be (v : Int) : List Nat := u64be (tc 64 v)

/-- Decode 4 bytes as `u32::from_be_bytes`. -/
def readU32 (bs : List Nat) : Nat := readBE (bs.take 4)

/-- Decode 4 bytes as `i32::from_be_bytes`. -/
def readI32 (bs : List Nat) : Int :=
  let n := readBE (bs.take 4)
  if n < 2147483648 then (n : Int) else (n : Int) - 4294967296

/-- Decode 8 bytes as `u64::from_be_bytes`. -/
def readU64 (bs : List Nat) : Nat := readBE (bs.take 8)

/-- Decode 8 bytes as `i64::from_be_bytes`. -/
def readI64 (bs : List Nat) : Int :=
  let n := readBE (bs.take 8)
  if n < 9223372036854775808 then (n : Int) else (n : Int) - U64MOD

/-! ## Rust strings

Rust `String`/`&str` values are embedded as their UTF-8 byte sequences.
`utf8Valid` is the success condition of `String::from_utf8`
(the standard UTF-8 DFA: no overlong forms, no surrogates, no code points
above U+10FFFF); `hexEncode` embeds `hex::encode`. -/

/-- Rust strings, embedded as UTF-8 byte lists. -/
abbrev RStr := List Nat

/-- Is a byte a UTF-8 continuation byte (0x80–0xBF)? -/
def isCont (b : Nat) : Bool := 0x80 ≤ b && b ≤ 0xBF

/-- Success condition of `String::from_utf8` on a byte sequence. -/
def utf8Valid : List Nat → Bool
  | [] => true
  | b :: rest =>
    if b < 0x80 then utf8Valid rest
    else if 0xC2 ≤ b && b ≤ 0xDF then
      match rest with
      | b1 :: r => isCont b1 && utf8Valid r
      | [] => false
    else if b = 0xE0 then
      match rest with
      | b1 :: b2 :: r => (0xA0 ≤ b1 && b1 ≤ 0xBF) && isCont b2 && utf8Valid r
      | _ => false
    else if (0xE1 ≤ b && b ≤ 0xEC) || b = 0xEE || b = 0xEF then
      match rest with
      | b1 :: b2 :: r => isCont b1 && isCont b2 && utf8Valid r
      | _ => false
    else if b = 0xED then
      match rest with
      | b1 :: b2 :: r => (0x80 ≤ b1 && b1 ≤ 0x9F) && isCont b2 && utf8Valid r
      | _ => false
    else if b = 0xF0 then
      match rest with
      | b1 :: b2 :: b3 :: r =>
        (0x90 ≤ b1 && b1 ≤ 0xBF) && isCont b2 && isCont b3 && utf8Valid r
      | _ => false
    else if 0xF1 ≤ b && b ≤ 0xF3 then
      match rest with
      | b1 :: b2 :: b3 :: r => isCont b1 && isCont b2 && isCont b3 && utf8Valid r
      | _ => false
    else if b = 0xF4 then
      match rest with
      | b1 :: b2 :: b3 :: r =>
        (0x80 ≤ b1 && b1 ≤ 0x8F) && isCont b2 && isCont b3 && utf8Valid r
      | _ => false
    else false

/-- Lowercase hex digit of a value below 16, as an ASCII byte. -/
def hexDigit (n : Nat) : Nat := if n < 10 then 48 + n else 87 + n

/-- Embeds `hex::encode`: each byte becomes two lowercase hex ASCII characters. -/
def hexEncode (bs : List Nat) : RStr :=
  (bs.map (fun b => [hexDigit (b % 256 / 16), hexDigit (b % 16)])).flatten

/-- Embeds `String::from_utf8(bs).unwrap_or_else(|_| hex::encode(bs))`. -/
def fromUtf8OrHex (bs : List Nat) : RStr :=
  if utf8Valid bs then bs else hexEncode bs

/-! ## ScVal and its XDR codec (`src/rpc/src/translator/scval.rs`)

`ScVal` mirrors the Rust enum: 32-bit and smaller integers are `Nat`/`Int`
with the fixed-width bound carried by `ScVal.wf` below, 256-bit integers
are four `u64` limbs exactly as in the source, and strings are UTF-8 byte
lists. -/

/-- Embeds `StellarAddress`: account or contract, each a 32-byte key. -/
inductive StellarAddress where
  | Account (key : List Nat)
  | Contract (key : List Nat)
  deriving DecidableEq, Repr

/-- The `ScVal` tagged union from `scval.rs`. -/
inductive ScVal where
  | B (v : Bool)
  | Void
  | U32 (v : Nat)
  | I32 (v : Int)
  | U64 (v : Nat)
  | I64 (v : Int)
  | U128 (v : Nat)
  | I128 (v : Int)
  | U256 (limbs : List Nat)
  | I256 (limbs : List Nat)
  | Bytes (data : List Nat)
  | Str (s : RStr)
  | Symbol (s : RStr)
  | Address (a : StellarAddress)
  | Vec (items : List ScVal)
  | Map (entries : List (ScVal × ScVal))

/-- XDR variable-length padding: zero bytes up to the next 4-byte boundary. -/
def xdrPad (len : Nat) : List Nat := List.replicate ((4 - len % 4) % 4) 0

mutual

/-- Embeds `ScVal::to_xdr`: 4-byte big-endian discriminant followed by the
variant payload, exactly as written by `scval.rs`. -/
def ScVal.to_xdr : ScVal → List Nat
  | .B v => u32be 0 ++ u32be (if v then 1 else 0)
  | .Void => u32be 1
  | .U32 v => u32be 3 ++ u32be v
  | .I32 v => u32be 4 ++ i32be v
  | .U64 v => u32be 5 ++ u64be v
  | .I64 v => u32be 6 ++ i64be v
  -- u128: `hi = (v >> 64) as u64; lo = v as u64`
  | .U128 v => u32be 9 ++ u64be (v % U128MOD / U64MOD) ++ u64be (v % U64MOD)
  -- i128: `hi = (v >> 64) as i64; lo = v as u64`; on the twos-complement
  -- residue n of v this emits the high and low 64-bit halves of n
  | .I128 v => u32be 10 ++ u64be (tc 128 v / U64MOD) ++ u64be (tc 128 v % U64MOD)
  | .U256 limbs => u32be 11 ++ (limbs.map u64be).flatten
  | .I256 limbs => u32be 12 ++ (limbs.map u64be).flatten
  | .Bytes data => u32be 13 ++ u32be data.length ++ data ++ xdrPad data.length
  | .Str s => u32be 14 ++ u32be s.length ++ s ++ xdrPad s.length
  | .Symbol s => u32be 15 ++ u32be s.length ++ s ++ xdrPad s.length
  | .Address (.Account key) => u32be 18 ++ u32be 0 ++ key
  | .Address (.Contract key) => u32be 18 ++ u32be 1 ++ key
  | .Vec items => u32be 16 ++ u32be 1 ++ u32be items.length ++ ScVal.listToXdr items
  | .Map entries =>
    u32be 17 ++ u32be 1 ++ u32be entries.length ++ ScVal.pairsToXdr entries

/-- XDR encoding of the elements of a `Vec` in order. -/
def ScVal.listToXdr : List ScVal → List Nat
  | [] => []
  | v :: rest => v.to_xdr ++ ScVal.listToXdr rest

/-- XDR encoding of the entries of a `Map`: key then value, per entry. -/
def ScVal.pairsToXdr : List (ScVal × ScVal) → List Nat
  | [] => []
  | (k, v) :: rest => k.to_xdr ++ v.to_xdr ++ ScVal.pairsToXdr rest

end

/-- Embeds `parse_scval_from_xdr`: reads the 4-byte discriminant and switches on
it; unknown discriminants fall back to a raw-bytes value. -/
def parse_scval_from_xdr (data : List Nat) : Except String ScVal :=
  if data.length < 4 then .error "XDR too short for ScVal discriminant"
  else
    let disc := readU32 (data.take 4)
    if disc = 0 then
      if data.length < 8 then .error "XDR too short for Bool value"
      else .ok (.B (readU32 ((data.drop 4).take 4) ≠ 0))
    else if disc = 1 then .ok .Void
    else if disc = 3 then
      if data.length < 8 then .error "XDR too short for U32"
      else .ok (.U32 (readU32 ((data.drop 4).take 4)))
    else if disc = 4 then
      if data.length < 8 then .error "XDR too short for I32"
      else .ok (.I32 (readI32 ((data.drop 4).take 4)))
    else if disc = 5 then
      if data.length < 12 then .error "XDR too short for U64"
      else .ok (.U64 (readU64 ((data.drop 4).take 8)))
    else if disc = 6 then
      if data.length < 12 then .error "XDR too short for I64"
      else .ok (.I64 (readI64 ((data.drop 4).take 8)))
    else if disc = 9 then
      if data.length < 20 then .error "XDR too short for U128"
      else
        let hi := readU64 ((data.drop 4).take 8)
        let lo := readU64 ((data.drop 12).take 8)
        -- `(hi << 64) | lo` with disjoint bit ranges
        .ok (.U128 (hi * U64MOD + lo))
    else if disc = 10 then
      if data.length < 20 then .error "XDR too short for I128"
      else
        let hi := readI64 ((data.drop 4).take 8)
        let lo := readU64 ((data.drop 12).take 8)
        -- `((hi as i128) << 64) | lo`: the shifted value has zero low bits
        .ok (.I128 (hi * (U64MOD : Int) + (lo : Int)))
    else if disc = 11 then
      if data.length < 36 then .error "XDR too short for U256"
      else
        .ok (.U256 ((List.range 4).map (fun i => readU64 ((data.drop (4 + i * 8)).take 8))))
    else if disc = 13 then
      if data.length < 8 then .error "XDR too short for Bytes length"
      else
        let len := readU32 ((data.drop 4).take 4)
        if data.length < 8 + len then .error "XDR too short for Bytes data"
        else .ok (.Bytes ((data.drop 8).take len))
    else if disc = 14 then
      if data.length < 8 then .error "XDR too short for String length"
      else
        let len := readU32 ((data.drop 4).take 4)
        if data.length < 8 + len then .error "XDR too short for String data"
        else .ok (.Str (fromUtf8OrHex ((data.drop 8).take len)))
    else if disc = 15 then
      if data.length < 8 then .error "XDR too short for Symbol length"
      else
        let len := readU32 ((data.drop 4).take 4)
        if data.length < 8 + len then .error "XDR too short for Symbol data"
        else .ok (.Symbol (fromUtf8OrHex ((data.drop 8).take len)))
    else .ok (.Bytes data)

/-! ## ABI parameter codec (`src/rpc/src/translator/abi.rs`)

Rust `usize` values coming from attacker-controlled 64-bit fields are
modelled with wrapping 64-bit arithmetic (`wrapAdd`, `wrapMul`), which is
the release-build behaviour of `+`/`*`; an index expression `data[a..b]`
that Rust would abort on (range reversed or past the end) is modelled by
the `panic` outcome. -/

/-- Outcome of a Rust function that may return `Ok`, return `Err`, or panic. -/
inductive AbiOutcome (α : Type) where
  | ok (val : α)
  | err (msg : String)
  | panic
  deriving DecidableEq, Repr

/-- ABI type string "bytes" (UTF-8). -/
def tyBytes : RStr := [0x62, 0x79, 0x74, 0x65, 0x73]

/-- ABI type string "string". -/
def tyString : RStr := [0x73, 0x74, 0x72, 0x69, 0x6e, 0x67]

/-- ABI type string "tuple". -/
def tyTuple : RStr := [0x74, 0x75, 0x70, 0x6c, 0x65]

/-- Array suffix "[]". -/
def tyArr : RStr := [0x5b, 0x5d]

/-- Embeds `AbiParam` (recursive through tuple components). -/
inductive AbiParam where
  | mk (name : RStr) (param_type : RStr) (indexed : Bool)
       (components : Option (List AbiParam))

/-- Field accessor: `name`. -/
def AbiParam.name : AbiParam → RStr
  | .mk n _ _ _ => n

/-- Field accessor: `param_type`. -/
def AbiParam.param_type : AbiParam → RStr
  | .mk _ t _ _ => t

/-- Field accessor: `components`. -/
def AbiParam.components : AbiParam → Option (List AbiParam)
  | .mk _ _ _ c => c

/-- Embeds `is_dynamic_type`: bytes, string, `T[]` arrays, or tuple. -/
def is_dynamic_type (t : RStr) : Bool :=
  t == tyBytes || t == tyString || tyArr.isSuffixOf t || t == tyTuple

/-- Wrapping 64-bit (`usize`) addition, as in a Rust release build. -/
def wrapAdd (a b : Nat) : Nat := (a + b) % U64MOD

/-- Wrapping 64-bit (`usize`) multiplication. -/
def wrapMul (a b : Nat) : Nat := (a * b) % U64MOD

/-- Embeds `&data[a..b]`: `some` slice when `a ≤ b ≤ data.len()`, otherwise the
range is invalid and Rust panics (`none`). -/
def rustSlice (data : List Nat) (a b : Nat) : Option (List Nat) :=
  if a ≤ b ∧ b ≤ data.length then some ((data.drop a).take (b - a)) else none

/-- Embeds `read_u256_as_usize`: big-endian value of the last 8 of 32 bytes. -/
def read_u256_as_usize (data : List Nat) : Except String Nat :=
  if data.length < 32 then .error "Not enough data for u256"
  else .ok (readBE ((data.drop 24).take 8))

/-- Embeds `decode_dynamic_param(data, offset, param_type)`. -/
def decode_dynamic_param (data : List Nat) (offset : Nat) (t : RStr) :
    AbiOutcome (List Nat) :=
  if data.length < wrapAdd offset 32 then
    .err "Dynamic param offset out of bounds"
  else if t == tyBytes || t == tyString then
    match rustSlice data offset (wrapAdd offset 32) with
    | none => .panic
    | some w =>
      match read_u256_as_usize w with
      | .error e => .err e
      | .ok len =>
        let start := wrapAdd offset 32
        let stop := wrapAdd start len
        if data.length < stop then .err "Dynamic param data out of bounds"
        else
          match rustSlice data start stop with
          | none => .panic
          | some chunk => .ok chunk
  else if tyArr.isSuffixOf t then
    match rustSlice data offset (wrapAdd offset 32) with
    | none => .panic
    | some w =>
      match read_u256_as_usize w with
      | .error e => .err e
      | .ok len =>
        let start := wrapAdd offset 32
        let stop := wrapAdd start (wrapMul len 32)
        if data.length < stop then .err "Dynamic array data out of bounds"
        else
          match rustSlice data offset stop with
          | none => .panic
          | some chunk => .ok chunk
  else
    let stop := min (wrapAdd offset 32) data.length
    match rustSlice data offset stop with
    | none => .panic
    | some chunk => .ok chunk

/-- The per-parameter walk of `decode_abi_params`, with the running head
offset made an explicit argument (it advances by 32 per parameter). -/
def decodeParamsLoop (data : List Nat) :
    List AbiParam → Nat → AbiOutcome (List (List Nat))
  | [], _ => .ok []
  | p :: rest, offset =>
    if is_dynamic_type p.param_type then
      if data.length < offset + 32 then .err "ABI data too short for dynamic offset"
      else
        match rustSlice data offset (offset + 32) with
        | none => .panic
        | some w =>
          match read_u256_as_usize w with
          | .error e => .err e
          | .ok data_offset =>
            match decode_dynamic_param data data_offset p.param_type with
            | .panic => .panic
            | .err e => .err e
            | .ok chunk =>
              match decodeParamsLoop data rest (offset + 32) with
              | .ok out => .ok (chunk :: out)
              | .err e => .err e
              | .panic => .panic
    else
      if data.length < offset + 32 then .err "ABI data too short for static param"
      else
        match rustSlice data offset (offset + 32) with
        | none => .panic
        | some chunk =>
          match decodeParamsLoop data rest (offset + 32) with
          | .ok out => .ok (chunk :: out)
          | .err e => .err e
          | .panic => .panic

/-- Embeds `decode_abi_params(data, param_types)`. -/
def decode_abi_params (data : List Nat) (params : List AbiParam) :
    AbiOutcome (List (List Nat)) :=
  if data.length = 0 ∧ params.length = 0 then .ok []
  else decodeParamsLoop data params 0

/-- Zero padding up to the next 32-byte boundary. -/
def padTo32 (len : Nat) : List Nat := List.replicate ((32 - len % 32) % 32) 0

/-- The loop of `encode_abi_values`, written structurally: the Rust
accumulators `result`/`dynamic_data` become the returned pair, and the
running `dynamic_data.len()` is the explicit argument `dlen`.  `none`
models the panic of the unguarded `values[i]` on a dynamic parameter. -/
def encodeLoop (values : List (List Nat)) (head_size : Nat) :
    List (Nat × AbiParam) → Nat → Option (List Nat × List Nat)
  | [], _ => some ([], [])
  | (i, p) :: rest, dlen =>
    if is_dynamic_type p.param_type then
      match values.get? i with
      | none => none
      | some v =>
        -- offset pointer: `(offset as u64)` into the last 8 of 32 bytes
        let head := List.replicate 24 0 ++ u64be (head_size + dlen)
        let entry := List.replicate 24 0 ++ u64be v.length ++ v ++ padTo32 v.length
        match encodeLoop values head_size rest (dlen + entry.length) with
        | none => none
        | some (h, d) => some (head ++ h, entry ++ d)
    else
      let head :=
        if i < values.length then
          let v := values.getD i []
          if 32 ≤ v.length then v.take 32
          else List.replicate (32 - v.length) 0 ++ v
        else List.replicate 32 0
      match encodeLoop values head_size rest dlen with
      | none => none
      | some (h, d) => some (head ++ h, d)

/-- Embeds `encode_abi_values(values, param_types)`: heads then dynamic region. -/
def encode_abi_values (values : List (List Nat)) (params : List AbiParam) :
    Option (List Nat) :=
  (encodeLoop values (params.length * 32) params.enum 0).map
    (fun r => r.1 ++ r.2)

/-! ## Function registry (`AbiRegistry` in `abi.rs`)

The `RwLock<HashMap<String, Vec<FunctionInfo>>>` is embedded as a pure
association list read through first-match lookup: `HashMap::insert`
replaces the binding for a key, which prepending and first-match `find?`
realizes observationally.  `normalize_address` lowercases ASCII letters;
contract addresses are hex strings, on which Rust `to_lowercase`
coincides with ASCII lowercasing. -/

/-- Entry type string "function". -/
def tyFunction : RStr := [0x66, 0x75, 0x6e, 0x63, 0x74, 0x69, 0x6f, 0x6e]

/-- Mutability string "nonpayable". -/
def tyNonpayable : RStr :=
  [0x6e, 0x6f, 0x6e, 0x70, 0x61, 0x79, 0x61, 0x62, 0x6c, 0x65]

/-- Hex marker "0x". -/
def hexMark : RStr := [0x30, 0x78]

/-- Embeds `AbiEntry` (one entry of a contract ABI, as JSON). -/
structure AbiEntry where
  entry_type : RStr
  name : Option RStr
  inputs : List AbiParam
  outputs : List AbiParam
  state_mutability : Option RStr

/-- Embeds `FunctionInfo`: selector plus the ABI metadata of the function. -/
structure FunctionInfo where
  name : RStr
  selector : List Nat
  inputs : List AbiParam
  outputs : List AbiParam
  state_mutability : RStr

/-- ASCII lowercasing of one byte. -/
def asciiToLower (b : Nat) : Nat := if 65 ≤ b ∧ b ≤ 90 then b + 32 else b

/-- Embeds `normalize_address`: strip a leading "0x" and lowercase. -/
def normalize_address (address : RStr) : RStr :=
  (if hexMark.isPrefixOf address then address.drop 2 else address).map asciiToLower

mutual

/-- Embeds `canonical_type(param_type, components)`, bundled on the `AbiParam`
carrying that pair: tuples render as parenthesized comma-joined component
types with a trailing `[]` if the tuple itself is an array. -/
def AbiParam.canonical : AbiParam → RStr
  | .mk _ t _ comps =>
    if tyTuple.isPrefixOf t then
      match comps with
      | some cs =>
        [0x28] ++ (List.intercalate [0x2c] (canonicalList cs)) ++ [0x29] ++
          (if tyArr.isSuffixOf t then tyArr else [])
      | none => t
    else t

/-- Canonical types of a component list, in order. -/
def canonicalList : List AbiParam → List RStr
  | [] => []
  | c :: rest => AbiParam.canonical c :: canonicalList rest

end

/-- Embeds `build_signature(name, inputs)`: canonical `name(type1,type2,...)`. -/
def build_signature (name : RStr) (inputs : List AbiParam) : RStr :=
  name ++ [0x28] ++ List.intercalate [0x2c] (canonicalList inputs) ++ [0x29]

/-- Embeds `compute_selector`: first 4 bytes of Keccak-256 of the signature. -/
def compute_selector (signature : RStr) : List Nat :=
  (keccak256 signature).take 4

/-- The registry state: normalized address → registered functions. -/
abbrev AbiRegistry := List (RStr × List FunctionInfo)

/-- The `FunctionInfo` list `register_contract` builds from an ABI:
entries of type "function" that carry a name, in order. -/
def buildFunctions (abi : List AbiEntry) : List FunctionInfo :=
  abi.filterMap (fun e =>
    if e.entry_type == tyFunction then
      e.name.map (fun nm =>
        { name := nm
          selector := compute_selector (build_signature nm e.inputs)
          inputs := e.inputs
          outputs := e.outputs
          state_mutability := e.state_mutability.getD tyNonpayable })
    else none)

/-- Embeds `register_contract`: replace the registration for the address wholesale. -/
def register_contract (reg : AbiRegistry) (address : RStr)
    (abi : List AbiEntry) : AbiRegistry :=
  (normalize_address address, buildFunctions abi) :: reg

/-- Embeds `lookup_function(address, selector)`: first registered function with
the given selector, if the address is registered. -/
def lookup_function (reg : AbiRegistry) (address : RStr)
    (selector : List Nat) : Option FunctionInfo :=
  ((reg.find? (fun e => e.1 == normalize_address address)).map (fun e => e.2)).bind
    (fun fns => fns.find? (fun f => f.selector == selector))

/-! ## ABI chunk → ScVal conversion (`abi_param_to_scval` in `scval.rs`) -/

/-- Decode 16 bytes as a signed twos-complement 128-bit value. -/
def readI128 (bs : List Nat) : Int :=
  let n := readBE (bs.take 16)
  if n < 170141183460469231731687303715884105728 then (n : Int)
  else (n : Int) - U128MOD

/-- Parse an ASCII decimal suffix, `None` if any byte is not a digit. -/
def parseDigits (bs : List Nat) : Option Nat :=
  bs.foldl (fun acc b =>
    acc.bind (fun n => if 48 ≤ b ∧ b ≤ 57 then some (n * 10 + (b - 48)) else none))
    (some 0)

/-- ABI type string "bool". -/
def tyBool : RStr := [0x62, 0x6f, 0x6f, 0x6c]

/-- ABI type string "address". -/
def tyAddress : RStr := [0x61, 0x64, 0x64, 0x72, 0x65, 0x73, 0x73]

/-- ABI type strings "uint8", "uint16", "uint32". -/
def tyU32s : List RStr :=
  [[0x75, 0x69, 0x6e, 0x74, 0x38], [0x75, 0x69, 0x6e, 0x74, 0x31, 0x36],
   [0x75, 0x69, 0x6e, 0x74, 0x33, 0x32]]

/-- ABI type strings "int8", "int16", "int32". -/
def tyI32s : List RStr :=
  [[0x69, 0x6e, 0x74, 0x38], [0x69, 0x6e, 0x74, 0x31, 0x36],
   [0x69, 0x6e, 0x74, 0x33, 0x32]]

/-- ABI type string "uint64". -/
def tyU64 : RStr := [0x75, 0x69, 0x6e, 0x74, 0x36, 0x34]

/-- ABI type string "int64". -/
def tyI64 : RStr := [0x69, 0x6e, 0x74, 0x36, 0x34]

/-- ABI type string "uint128". -/
def tyU128 : RStr := [0x75, 0x69, 0x6e, 0x74, 0x31, 0x32, 0x38]

/-- ABI type string "int128". -/
def tyI128 : RStr := [0x69, 0x6e, 0x74, 0x31, 0x32, 0x38]

/-- ABI type string "uint256". -/
def tyU256 : RStr := [0x75, 0x69, 0x6e, 0x74, 0x32, 0x35, 0x36]

/-- ABI type string "int256". -/
def tyI256 : RStr := [0x69, 0x6e, 0x74, 0x32, 0x35, 0x36]

/-- Read the four big-endian 64-bit limbs of a 32-byte chunk. -/
def limbsOf (data : List Nat) : List Nat :=
  (List.range 4).map (fun i => readU64 ((data.drop (i * 8)).take 8))

/-- Embeds `abi_param_to_scval(data, param)`. -/
def abi_param_to_scval (data : List Nat) (p : AbiParam) : Except String ScVal :=
  let t := p.param_type
  if t == tyBool then
    if data.length < 32 then .error "Bool data too short"
    else .ok (.B (data.getD 31 0 ≠ 0))
  else if t == tyAddress then
    if data.length < 32 then .error "Address data too short"
    else .ok (.Address (.Contract (List.replicate 12 0 ++ (data.drop 12).take 20)))
  else if tyU32s.contains t then
    if data.length < 32 then .error "Uint data too short"
    else .ok (.U32 (readU32 ((data.drop 28).take 4)))
  else if tyI32s.contains t then
    if data.length < 32 then .error "Int data too short"
    else .ok (.I32 (readI32 ((data.drop 28).take 4)))
  else if t == tyU64 then
    if data.length < 32 then .error "Uint64 data too short"
    else .ok (.U64 (readU64 ((data.drop 24).take 8)))
  else if t == tyI64 then
    if data.length < 32 then .error "Int64 data too short"
    else .ok (.I64 (readI64 ((data.drop 24).take 8)))
  else if t == tyU128 then
    if data.length < 32 then .error "Uint128 data too short"
    else .ok (.U128 (readBE ((data.drop 16).take 16)))
  else if t == tyI128 then
    if data.length < 32 then .error "Int128 data too short"
    else .ok (.I128 (readI128 ((data.drop 16).take 16)))
  else if t == tyU256 then
    if data.length < 32 then .error "Uint256 data too short"
    else .ok (.U256 (limbsOf data))
  else if t == tyI256 then
    if data.length < 32 then .error "Int256 data too short"
    else .ok (.I256 (limbsOf data))
  else if t == tyBytes then .ok (.Bytes data)
  else if t == tyString then .ok (.Str (fromUtf8OrHex data))
  else if tyBytes.isPrefixOf t ∧ 5 < t.length then
    let n := (parseDigits (t.drop 5)).getD 32
    .ok (.Bytes (data.take (min n data.length)))
  else
    if 32 ≤ data.length then .ok (.U256 (limbsOf data))
    else .ok (.Bytes data)

/-! ## RLP and the EVM transaction decoder (`src/rpc/src/translator/tx.rs`)

The `rlp` crate is embedded at the item level: a top-level RLP list is
split into its items (a flag telling string from nested list, plus the
payload bytes), exactly the walk `Rlp::item_count` performs; `val_at::<u64>`
and `val_at::<Vec<u8>>` with their `unwrap_or` defaults become `valAtU64`
and `valAtBytes`. -/

/-- Header of the RLP item at the head of `bs`:
`(is-list, payload, total size)`; `none` on a truncated buffer. -/
def rlpItemInfo (bs : List Nat) : Option (Bool × List Nat × Nat) :=
  match bs with
  | [] => none
  | b :: rest =>
    if b < 0x80 then some (false, [b], 1)
    else if b ≤ 0xb7 then
      let n := b - 0x80
      if rest.length < n then none else some (false, rest.take n, 1 + n)
    else if b ≤ 0xbf then
      let ll := b - 0xb7
      if rest.length < ll then none
      else
        let n := readBE (rest.take ll)
        if (rest.drop ll).length < n then none
        else some (false, (rest.drop ll).take n, 1 + ll + n)
    else if b ≤ 0xf7 then
      let n := b - 0xc0
      if rest.length < n then none else some (true, rest.take n, 1 + n)
    else
      let ll := b - 0xf7
      if rest.length < ll then none
      else
        let n := readBE (rest.take ll)
        if (rest.drop ll).length < n then none
        else some (true, (rest.drop ll).take n, 1 + ll + n)

/-- Walk the payload of a list, collecting `(is-list, payload)` per item.
Each step consumes at least one byte, so the byte count is enough fuel. -/
def splitItemsF : Nat → List Nat → Option (List (Bool × List Nat))
  | _, [] => some []
  | 0, _ :: _ => none
  | fuel + 1, bs =>
    match rlpItemInfo bs with
    | none => none
    | some (isL, pl, sz) =>
      (splitItemsF fuel (bs.drop (max sz 1))).map (fun r => (isL, pl) :: r)

/-- Items of an RLP list payload (the walk behind `Rlp::item_count`). -/
def splitItems (bs : List Nat) : Option (List (Bool × List Nat)) :=
  splitItemsF bs.length bs

/-- Embeds `Rlp::is_list`: nonempty and first byte ≥ 0xc0. -/
def rlpIsList (bs : List Nat) : Bool :=
  !bs.isEmpty && 0xc0 ≤ bs.headD 0

/-- Parse a top-level RLP list into its items. -/
def rlpListItems (bs : List Nat) : Option (List (Bool × List Nat)) :=
  match rlpItemInfo bs with
  | some (true, payload, _) => splitItems payload
  | _ => none

/-- Embeds `rlp.val_at::<u64>(i).unwrap_or(0)`: string payload of at most 8
bytes with no leading zero, big-endian; anything else defaults to 0. -/
def valAtU64 (items : List (Bool × List Nat)) (i : Nat) : Nat :=
  match items.get? i with
  | some (false, pl) =>
    if pl.length ≤ 8 ∧ (pl = [] ∨ pl.headD 0 ≠ 0) then readBE pl else 0
  | _ => 0

/-- Embeds `rlp.val_at::<Vec<u8>>(i).unwrap_or_default()`. -/
def valAtBytes (items : List (Bool × List Nat)) (i : Nat) : List Nat :=
  match items.get? i with
  | some (false, pl) => pl
  | _ => []

/-- Embeds `bytes_to_u128`: big-endian fold `(result << 8) | b` on a `u128`. -/
def bytes_to_u128 (bytes : List Nat) : Nat :=
  bytes.foldl (fun result b => (result * 256) % U128MOD + b % 256) 0

/-- Embeds `DecodedEvmTransaction`. -/
structure DecodedEvmTransaction where
  nonce : Nat
  gas_price : Nat
  gas_limit : Nat
  toAddr : Option (List Nat)
  value : Nat
  data : List Nat
  chain_id : Option Nat
  v : Nat
  r : List Nat
  s : List Nat
  tx_hash : List Nat
  deriving DecidableEq, Repr

/-- Embeds `decode_legacy_transaction` on the 9-item list. -/
def decode_legacy_transaction (items : List (Bool × List Nat))
    (raw_tx : List Nat) : DecodedEvmTransaction :=
  let to_bytes := valAtBytes items 3
  let v := valAtU64 items 6
  { nonce := valAtU64 items 0
    gas_price := valAtU64 items 1
    gas_limit := valAtU64 items 2
    toAddr := if to_bytes.length = 20 then some to_bytes else none
    value := bytes_to_u128 (valAtBytes items 4)
    data := valAtBytes items 5
    chain_id := if 35 ≤ v then some ((v - 35) / 2) else none
    v := v
    r := valAtBytes items 7
    s := valAtBytes items 8
    tx_hash := keccak256 raw_tx }

/-- Embeds `decode_eip1559_transaction` on a typed list of at least 9 items. -/
def decode_eip1559_transaction (items : List (Bool × List Nat))
    (raw_tx : List Nat) : DecodedEvmTransaction :=
  let to_bytes := valAtBytes items 5
  { nonce := valAtU64 items 1
    gas_price := valAtU64 items 3
    gas_limit := valAtU64 items 4
    toAddr := if to_bytes.length = 20 then some to_bytes else none
    value := bytes_to_u128 (valAtBytes items 6)
    data := valAtBytes items 7
    chain_id := some (valAtU64 items 0)
    v := valAtU64 items 9
    r := valAtBytes items 10
    s := valAtBytes items 11
    tx_hash := keccak256 raw_tx }

/-- Embeds `decode_unsigned_transaction` on the 6-item list. -/
def decode_unsigned_transaction (items : List (Bool × List Nat))
    (raw_tx : List Nat) : DecodedEvmTransaction :=
  let to_bytes := valAtBytes items 3
  { nonce := valAtU64 items 0
    gas_price := valAtU64 items 1
    gas_limit := valAtU64 items 2
    toAddr := if to_bytes.length = 20 then some to_bytes else none
    value := bytes_to_u128 (valAtBytes items 4)
    data := valAtBytes items 5
    chain_id := none
    v := 0
    r := []
    s := []
    tx_hash := keccak256 raw_tx }

/-- Embeds `decode_raw_transaction`: strip an EIP-2718 type prefix (first byte
below 0x7f), require a list, dispatch on the item count. -/
def decode_raw_transaction (raw_tx : List Nat) :
    Except String DecodedEvmTransaction :=
  let is_typed := !raw_tx.isEmpty && raw_tx.headD 0 < 0x7f
  let tx_data := if is_typed then raw_tx.tail else raw_tx
  if ¬ rlpIsList tx_data then .error "Transaction RLP is not a list"
  else
    match rlpListItems tx_data with
    | none => .error "RLP parse error"
    | some items =>
      if is_typed ∧ 9 ≤ items.length then
        .ok (decode_eip1559_transaction items raw_tx)
      else if items.length = 9 then
        .ok (decode_legacy_transaction items raw_tx)
      else if items.length = 6 then
        .ok (decode_unsigned_transaction items raw_tx)
      else .error "Unexpected RLP item count"

/-- Embeds `DecodedCalldata`. -/
structure DecodedCalldata where
  selector : List Nat
  function_name : Option RStr
  params_data : List Nat
  scval_params : List ScVal

/-- Convert decoded chunks with their input descriptors: the source loop
pushes `abi_param_to_scval(chunk, inputs[i])` while `i < inputs.len()`. -/
def scvalsOf : List (List Nat) → List AbiParam → Except String (List ScVal)
  | [], _ => .ok []
  | _ :: _, [] => .ok []
  | c :: cs, p :: ps =>
    match abi_param_to_scval c p with
    | .error e => .error e
    | .ok v =>
      match scvalsOf cs ps with
      | .error e => .error e
      | .ok rest => .ok (v :: rest)

/-- Embeds `decode_calldata(calldata, contract_address, abi_registry)`. -/
def decode_calldata (calldata : List Nat) (contract_address : RStr)
    (reg : AbiRegistry) : AbiOutcome DecodedCalldata :=
  if calldata.length < 4 then .err "Calldata too short for function selector"
  else
    let selector := calldata.take 4
    let params_data := calldata.drop 4
    match lookup_function reg contract_address selector with
    | some info =>
      match decode_abi_params params_data info.inputs with
      | .panic => .panic
      | .err e => .err e
      | .ok chunks =>
        match scvalsOf chunks info.inputs with
        | .error e => .err e
        | .ok svs =>
          .ok ⟨selector, some info.name, params_data, svs⟩
    | none =>
      .ok ⟨selector, none, params_data,
           if params_data.isEmpty then [] else [.Bytes params_data]⟩

/-! ## Unit conversions (`tx.rs`) -/

/-- Embeds `stroops_to_wei`: `(stroops as u128) * 10^11`. -/
def stroops_to_wei (stroops : Nat) : Nat :=
  (stroops % U64MOD) * 100000000000

/-- Embeds `wei_to_stroops`: `(wei / 10^11) as u64`. -/
def wei_to_stroops (wei : Nat) : Nat :=
  (wei % U128MOD / 100000000000) % U64MOD

/-! ## Helper lemmas -/

/-- Reading back `u64be` returns the value modulo `2^64`. -/
theorem readBE_u64be (v : Nat) : readBE (u64be v) = v % U64MOD := by
  simp only [readBE, u64be, U64MOD, List.foldl]
  omega

/-- Reading back `u32be` returns the value modulo `2^32`. -/
theorem readBE_u32be (v : Nat) : readBE (u32be v) = v % U32MOD := by
  simp only [readBE, u32be, U32MOD, List.foldl]
  omega

/-- Lists produced by `u64be` have 8 bytes. -/
theorem length_u64be (v : Nat) : (u64be v).length = 8 := rfl

/-- Lists produced by `u32be` have 4 bytes. -/
theorem length_u32be (v : Nat) : (u32be v).length = 4 := rfl

/-! ## Claim C9: stroop/wei unit conversion -/

/-- C9: the stroop→wei scaling by 10^11 is undone exactly by
`wei_to_stroops` for every `u64` stroop count, the intermediate 128-bit
product never overflows, and 10^7 stroops map to 10^18 wei. -/
theorem stroops_wei_bijection :
    (∀ x : Nat, x < U64MOD →
      wei_to_stroops (stroops_to_wei x) = x ∧ stroops_to_wei x < U128MOD) ∧
    stroops_to_wei 10000000 = 1000000000000000000 := by
  refine ⟨fun x hx => ?_, rfl⟩
  unfold stroops_to_wei wei_to_stroops U64MOD U128MOD at *
  have h1 : x % 18446744073709551616 = x := Nat.mod_eq_of_lt hx
  rw [h1]
  have h2 : x * 100000000000 < 340282366920938463463374607431768211456 := by
    nlinarith
  refine ⟨?_, h2⟩
  rw [Nat.mod_eq_of_lt h2,
    Nat.mul_div_cancel x (by norm_num : 0 < 100000000000)]
  exact Nat.mod_eq_of_lt hx

/-- Witness for C9 at the `u64` value 7. -/
theorem stroops_wei_bijection_witness :
    wei_to_stroops (stroops_to_wei 7) = 7 ∧ stroops_to_wei 7 < U128MOD :=
  stroops_wei_bijection.1 7 (by norm_num [U64MOD])

/-! ## Claim C7: selector computation -/

/-- Signature "transfer(address,uint256)" as UTF-8 bytes. -/
def sigTransfer : RStr :=
  [116, 114, 97, 110, 115, 102, 101, 114, 40, 97, 100, 100, 114, 101, 115,
   115, 44, 117, 105, 110, 116, 50, 53, 54, 41]

/-- Signature "balanceOf(address)" as UTF-8 bytes. -/
def sigBalanceOf : RStr :=
  [98, 97, 108, 97, 110, 99, 101, 79, 102, 40, 97, 100, 100, 114, 101, 115,
   115, 41]

/-- C7: `compute_selector` is deterministic, equals the first 4 bytes of
the Keccak-256 digest of the signature bytes, and produces `0xa9059cbb`
for "transfer(address,uint256)" and `0x70a08231` for
"balanceOf(address)". -/
theorem compute_selector_spec :
    (∀ s1 s2 : RStr, s1 = s2 → compute_selector s1 = compute_selector s2) ∧
    (∀ s : RStr, compute_selector s = (keccak256 s).take 4) ∧
    compute_selector sigTransfer = [0xa9, 0x05, 0x9c, 0xbb] ∧
    compute_selector sigBalanceOf = [0x70, 0xa0, 0x82, 0x31] :=
  ⟨fun _ _ h => by rw [h], fun _ => rfl, by decide, by decide⟩

/-- Witness for the determinism hypothesis of C7 at a concrete signature. -/
theorem compute_selector_spec_witness :
    compute_selector sigTransfer = compute_selector sigTransfer :=
  compute_selector_spec.1 sigTransfer sigTransfer rfl

/-! ## Claim C5: chain-id derivation in the RLP transaction decoders -/

/-- C5: a decoded 9-item legacy transaction carries
`chain_id = (v − 35) / 2` exactly when `v ≥ 35` (so `v = 37` gives chain
id 1), and a decoded 6-item unsigned transaction carries no chain id,
`v = 0`, and empty `r`/`s`. -/
theorem legacy_chain_id_spec :
    (∀ items raw, (decode_legacy_transaction items raw).chain_id =
      if 35 ≤ (decode_legacy_transaction items raw).v then
        some (((decode_legacy_transaction items raw).v - 35) / 2)
      else none) ∧
    (∀ items raw, (decode_legacy_transaction items raw).v = 37 →
      (decode_legacy_transaction items raw).chain_id = some 1) ∧
    (∀ items raw, (decode_unsigned_transaction items raw).chain_id = none ∧
      (decode_unsigned_transaction items raw).v = 0 ∧
      (decode_unsigned_transaction items raw).r = [] ∧
      (decode_unsigned_transaction items raw).s = []) := by
  refine ⟨fun items raw => rfl, fun items raw h => ?_,
    fun items raw => ⟨rfl, rfl, rfl, rfl⟩⟩
  simp only [decode_legacy_transaction] at h ⊢
  rw [h]
  norm_num

/-- Witness for C5: nine empty items with `v = 37` yield chain id 1. -/
theorem legacy_chain_id_spec_witness :
    (decode_legacy_transaction
      [(false, []), (false, []), (false, []), (false, []), (false, []),
       (false, []), (false, [37]), (false, []), (false, [])] []).chain_id
      = some 1 :=
  legacy_chain_id_spec.2.1 _ [] rfl

/-! ## Claim C6: the transaction hash is Keccak-256 of the raw buffer -/

/-- C6: whenever `decode_raw_transaction` succeeds — on the legacy,
unsigned, or typed path — the reported `tx_hash` is the Keccak-256 digest
of the complete original input buffer (type prefix included). -/
theorem tx_hash_is_keccak_of_raw (raw : List Nat)
    (d : DecodedEvmTransaction)
    (h : decode_raw_transaction raw = .ok d) : d.tx_hash = keccak256 raw := by
  simp only [decode_raw_transaction] at h
  repeat' split at h
  all_goals
    first
      | exact Except.noConfusion h
      | (cases h; rfl)

/-- The RLP encoding of a 6-item list of empty strings. -/
def rawUnsigned6 : List Nat := [0xc6, 0x80, 0x80, 0x80, 0x80, 0x80, 0x80]

/-- Witness for C6 on the 6-item unsigned transaction `rawUnsigned6`. -/
theorem tx_hash_is_keccak_of_raw_witness :
    (decode_unsigned_transaction (List.replicate 6 (false, []))
      rawUnsigned6).tx_hash = keccak256 rawUnsigned6 :=
  tx_hash_is_keccak_of_raw rawUnsigned6
    (decode_unsigned_transaction (List.replicate 6 (false, [])) rawUnsigned6)
    rfl

/-! ## Claim C3: bounds behaviour of `decode_abi_params` -/

/-- A 64-byte buffer: a head slot holding offset 32, then a 32-byte
length word whose low 8 bytes are 0xFF, i.e. length `2^64 − 1`. -/
def abiPanicData : List Nat :=
  List.replicate 24 0 ++ u64be 32 ++ List.replicate 24 0 ++
    [255, 255, 255, 255, 255, 255, 255, 255]

/-- An `AbiParam` of ABI type "bytes". -/
def paramBytes : AbiParam := .mk [] tyBytes false none

/-- C3: on a 64-byte buffer whose dynamic length field is `2^64 − 1`,
`decode_abi_params` does not return a buffer-too-short error: the
wrapping `start + length` computation produces a reversed slice range and
the decoder panics. -/
theorem decode_abi_params_panics_on_wrapped_length :
    decode_abi_params abiPanicData [paramBytes] = .panic ∧
    abiPanicData.length = 64 :=
  ⟨rfl, rfl⟩

/-! ## Claim C4: unregistered selectors in `decode_calldata` -/

/-- C4 (amended): with at least 4 bytes of calldata and an unregistered
selector, `decode_calldata` succeeds with no function name and passes the
parameter bytes through as a single opaque `Bytes` value when they are
nonempty — and as an empty argument list when the calldata is exactly the
selector. -/
theorem decode_calldata_unregistered (calldata : List Nat) (addr : RStr)
    (reg : AbiRegistry) (h4 : 4 ≤ calldata.length)
    (hmiss : lookup_function reg addr (calldata.take 4) = none) :
    decode_calldata calldata addr reg =
      .ok ⟨calldata.take 4, none, calldata.drop 4,
           if (calldata.drop 4).isEmpty then []
           else [.Bytes (calldata.drop 4)]⟩ := by
  simp only [decode_calldata, hmiss]
  rw [if_neg (by omega)]

/-- Witness for C4 (amended) on 5-byte calldata and an empty registry. -/
theorem decode_calldata_unregistered_witness :
    decode_calldata [1, 2, 3, 4, 5] [] [] =
      .ok ⟨[1, 2, 3, 4], none, [5], [.Bytes [5]]⟩ :=
  decode_calldata_unregistered [1, 2, 3, 4, 5] [] [] (by norm_num) rfl

/-- C4 counterexample: on calldata of exactly 4 bytes the unregistered
path returns an empty `scval_params`, not a single opaque-bytes value. -/
theorem decode_calldata_exact4_no_bytes_param :
    decode_calldata [0, 0, 0, 0] [] [] = .ok ⟨[0, 0, 0, 0], none, [], []⟩ ∧
    ([] : List ScVal) ≠ [ScVal.Bytes []] :=
  ⟨rfl, fun h => List.noConfusion h⟩

/-! ## Claim C8: registry replacement and collision resolution -/

/-- C8 (amended): a second registration for the
same address fully replaces the first, so lookups resolve only against
the function entries of the latest ABI (searched first-match by selector);
and non-"function" entries never contribute. -/
theorem register_replaces_and_first_selector_wins :
    (∀ (reg : AbiRegistry) (a : RStr) (abi1 abi2 : List AbiEntry)
       (s : List Nat),
      lookup_function (register_contract (register_contract reg a abi1) a abi2) a s
        = (buildFunctions abi2).find? (fun f => f.selector == s)) ∧
    (∀ abi : List AbiEntry,
      buildFunctions (abi.filter (fun e => e.entry_type == tyFunction))
        = buildFunctions abi) := by
  constructor
  · intro reg a abi1 abi2 s
    simp [lookup_function, register_contract, List.find?]
  · intro abi
    unfold buildFunctions
    rw [List.filterMap_filter]
    refine List.filterMap_congr (fun e _ => ?_)
    by_cases he : (e.entry_type == tyFunction) = true
    · simp [he]
    · simp [he]

/-- Mutability string "view". -/
def tyView : RStr := [0x76, 0x69, 0x65, 0x77]

/-- Mutability string "payable". -/
def tyPayable : RStr := [0x70, 0x61, 0x79, 0x61, 0x62, 0x6c, 0x65]

/-- Function name "f". -/
def nmeF : RStr := [0x66]

/-- ABI entry `f()` with state mutability "view". -/
def entryFView : AbiEntry := ⟨tyFunction, some nmeF, [], [], some tyView⟩

/-- ABI entry `f()` with state mutability "payable". -/
def entryFPayable : AbiEntry := ⟨tyFunction, some nmeF, [], [], some tyPayable⟩

/-- Address string "ab", a contract address key. -/
def addrC8 : RStr := [0x61, 0x62]

/-- The selector of `f()`. -/
def selFF : List Nat := compute_selector (build_signature nmeF [])

/-- C8 counterexample: registering two colliding `f()` entries in one
call resolves to the FIRST one ("view"), not the last ("payable"). -/
theorem lookup_collision_first_wins :
    ((lookup_function (register_contract [] addrC8 [entryFView, entryFPayable])
        addrC8 selFF).map (fun f => f.state_mutability)) = some tyView ∧
    tyView ≠ tyPayable :=
  ⟨rfl, by decide⟩

/-! ## Claim C1: ScVal XDR round-trip -/

/-- Decoder-supported, well-formed values: the Rust-side fixed-width
bounds on the integer variants, `u32`-sized lengths for variable-length
payloads, UTF-8 validity (a Rust `String` invariant) for `Str`/`Symbol`
— and membership in the set of variants `parse_scval_from_xdr` actually
handles (`I256`, `Address`, `Vec` and `Map` are not parsed back). -/
def ScVal.roundtrips : ScVal → Bool
  | .B _ => true
  | .Void => true
  | .U32 v => v < U32MOD
  | .I32 v => -2147483648 ≤ v && v < 2147483648
  | .U64 v => v < U64MOD
  | .I64 v => -9223372036854775808 ≤ v && v < 9223372036854775808
  | .U128 v => v < U128MOD
  | .I128 v => -170141183460469231731687303715884105728 ≤ v &&
      v < 170141183460469231731687303715884105728
  | .U256 limbs => limbs.length = 4 && limbs.all (fun x => x < U64MOD)
  | .Bytes d => d.length < U32MOD
  | .Str s => utf8Valid s && s.length < U32MOD
  | .Symbol s => utf8Valid s && s.length < U32MOD
  | .I256 _ => false
  | .Address _ => false
  | .Vec _ => false
  | .Map _ => false

/-- Reading `readU32` back from `u32be` gives the value modulo `2^32`. -/
theorem readU32_u32be (v : Nat) : readU32 (u32be v) = v % U32MOD :=
  readBE_u32be v

/-- Reading `readU64` back from `u64be` gives the value modulo `2^64`. -/
theorem readU64_u64be (v : Nat) : readU64 (u64be v) = v % U64MOD :=
  readBE_u64be v

/-- Reading `readI32` back from `i32be` is the identity on the `i32` range. -/
theorem readI32_i32be (v : Int) (h1 : -2147483648 ≤ v)
    (h2 : v < 2147483648) : readI32 (i32be v) = v := by
  have h := readBE_u32be (tc 32 v)
  simp only [readI32, i32be, show ∀ x, (u32be x).take 4 = u32be x from fun x => rfl, h]
  simp only [tc, U32MOD] at *
  omega

/-- Reading `readI64` back from `i64be` is the identity on the `i64` range. -/
theorem readI64_i64be (v : Int) (h1 : -9223372036854775808 ≤ v)
    (h2 : v < 9223372036854775808) : readI64 (i64be v) = v := by
  have h := readBE_u64be (tc 64 v)
  simp only [readI64, i64be, show ∀ x, (u64be x).take 8 = u64be x from fun x => rfl, h]
  simp only [tc, U64MOD] at *
  omega

/-- Taking 4 bytes of `u32be x` is the whole list. -/
theorem take4_u32be (x : Nat) : (u32be x).take 4 = u32be x := rfl

/-- Taking 8 bytes of `u64be x` is the whole list. -/
theorem take8_u64be (x : Nat) : (u64be x).take 8 = u64be x := rfl

/-- Variant of `readI32_i32be` phrased on the twos-complement bytes. -/
theorem readI32_tc (v : Int) (h1 : -2147483648 ≤ v) (h2 : v < 2147483648) :
    readI32 (u32be (tc 32 v)) = v := readI32_i32be v h1 h2

/-- Variant of `readI64_i64be` phrased on the twos-complement bytes. -/
theorem readI64_tc (v : Int) (h1 : -9223372036854775808 ≤ v)
    (h2 : v < 9223372036854775808) : readI64 (u64be (tc 64 v)) = v :=
  readI64_i64be v h1 h2

/-- C1 (amended): decoding inverts encoding on every well-formed value
of a parser-supported variant. -/
theorem scval_xdr_roundtrip (v : ScVal) (hv : v.roundtrips = true) :
    parse_scval_from_xdr v.to_xdr = .ok v := by
  cases v with
  | B b => cases b <;> rfl
  | Void => rfl
  | U32 w =>
    have hb : w < 4294967296 := by simpa [ScVal.roundtrips, U32MOD] using hv
    show parse_scval_from_xdr (u32be 3 ++ u32be w) = _
    unfold parse_scval_from_xdr
    rw [List.take_left' (length_u32be 3), List.drop_left' (length_u32be 3)]
    norm_num [U32MOD, readU32_u32be, length_u32be, List.length_append, take4_u32be]
    omega
  | I32 w =>
    have hb : -2147483648 ≤ w ∧ w < 2147483648 := by
      simpa [ScVal.roundtrips] using hv
    show parse_scval_from_xdr (u32be 4 ++ u32be (tc 32 w)) = _
    unfold parse_scval_from_xdr
    rw [List.take_left' (length_u32be 4), List.drop_left' (length_u32be 4)]
    norm_num [U32MOD, readU32_u32be, length_u32be, List.length_append,
      take4_u32be, readI32_tc w hb.1 hb.2]
  | U64 w =>
    have hb : w < U64MOD := by simpa [ScVal.roundtrips] using hv
    show parse_scval_from_xdr (u32be 5 ++ u64be w) = _
    unfold parse_scval_from_xdr
    rw [List.take_left' (length_u32be 5), List.drop_left' (length_u32be 5)]
    norm_num [U32MOD, readU32_u32be, readU64_u64be, length_u32be, length_u64be,
      List.length_append, take8_u64be]
    simp only [U64MOD] at *
    omega
  | I64 w =>
    have hb : -9223372036854775808 ≤ w ∧ w < 9223372036854775808 := by
      simpa [ScVal.roundtrips] using hv
    show parse_scval_from_xdr (u32be 6 ++ u64be (tc 64 w)) = _
    unfold parse_scval_from_xdr
    rw [List.take_left' (length_u32be 6), List.drop_left' (length_u32be 6)]
    norm_num [U32MOD, readU32_u32be, length_u32be, length_u64be,
      List.length_append, take8_u64be, readI64_tc w hb.1 hb.2]
  | U128 w =>
    have hb : w < U128MOD := by simpa [ScVal.roundtrips] using hv
    show parse_scval_from_xdr
      (u32be 9 ++ (u64be (w % U128MOD / U64MOD) ++ u64be (w % U64MOD))) = _
    unfold parse_scval_from_xdr
    have e12 : (u32be 9 ++ (u64be (w % U128MOD / U64MOD) ++ u64be (w % U64MOD))).drop 12
        = u64be (w % U64MOD) := by
      have h1 : ((u32be 9 ++ (u64be (w % U128MOD / U64MOD) ++ u64be (w % U64MOD))).drop 4).drop 8
          = (u32be 9 ++ (u64be (w % U128MOD / U64MOD) ++ u64be (w % U64MOD))).drop 12 := by
        rw [List.drop_drop]
      rw [← h1, List.drop_left' (length_u32be 9), List.drop_left' (length_u64be _)]
    rw [List.take_left' (length_u32be 9), List.drop_left' (length_u32be 9), e12]
    rw [List.take_left' (length_u64be _)]
    norm_num [U32MOD, readU32_u32be, readU64_u64be, length_u32be, length_u64be,
      List.length_append, take8_u64be]
    simp only [U64MOD, U128MOD] at *
    omega
  | I128 w =>
    have hb : -170141183460469231731687303715884105728 ≤ w ∧
        w < 170141183460469231731687303715884105728 := by
      simpa [ScVal.roundtrips] using hv
    show parse_scval_from_xdr
      (u32be 10 ++ (u64be (tc 128 w / U64MOD) ++ u64be (tc 128 w % U64MOD))) = _
    unfold parse_scval_from_xdr
    have e12 : (u32be 10 ++ (u64be (tc 128 w / U64MOD) ++ u64be (tc 128 w % U64MOD))).drop 12
        = u64be (tc 128 w % U64MOD) := by
      have h1 : ((u32be 10 ++ (u64be (tc 128 w / U64MOD) ++ u64be (tc 128 w % U64MOD))).drop 4).drop 8
          = (u32be 10 ++ (u64be (tc 128 w / U64MOD) ++ u64be (tc 128 w % U64MOD))).drop 12 := by
        rw [List.drop_drop]
      rw [← h1, List.drop_left' (length_u32be 10), List.drop_left' (length_u64be _)]
    rw [List.take_left' (length_u32be 10), List.drop_left' (length_u32be 10), e12]
    rw [List.take_left' (length_u64be _)]
    norm_num [U32MOD, readU32_u32be, readU64_u64be, readI64, length_u32be,
      length_u64be, List.length_append, take8_u64be, readBE_u64be]
    simp only [tc, U64MOD, U128MOD] at *
    omega
  | U256 limbs =>
    have h4 : limbs.length = 4 ∧ ∀ x ∈ limbs, x < U64MOD := by
      simpa [ScVal.roundtrips, List.all_eq_true] using hv
    obtain ⟨hlen, hall⟩ := h4
    match limbs, hlen with
    | [a, b, c, d], _ =>
      have ha : a < U64MOD := hall a (by simp)
      have hbb : b < U64MOD := hall b (by simp)
      have hc : c < U64MOD := hall c (by simp)
      have hd : d < U64MOD := hall d (by simp)
      show parse_scval_from_xdr
        (u32be 11 ++ (u64be a ++ (u64be b ++ (u64be c ++ (u64be d ++ []))))) = _
      rw [List.append_nil (u64be d)]
      unfold parse_scval_from_xdr
      have e12 : (u32be 11 ++ (u64be a ++ (u64be b ++ (u64be c ++ u64be d)))).drop 12
          = u64be b ++ (u64be c ++ u64be d) := by
        have h1 : ((u32be 11 ++ (u64be a ++ (u64be b ++ (u64be c ++ u64be d)))).drop 4).drop 8
            = (u32be 11 ++ (u64be a ++ (u64be b ++ (u64be c ++ u64be d)))).drop 12 := by
          rw [List.drop_drop]
        rw [← h1, List.drop_left' (length_u32be 11), List.drop_left' (length_u64be a)]
      have e20 : (u32be 11 ++ (u64be a ++ (u64be b ++ (u64be c ++ u64be d)))).drop 20
          = u64be c ++ u64be d := by
        have h1 : ((u32be 11 ++ (u64be a ++ (u64be b ++ (u64be c ++ u64be d)))).drop 12).drop 8
            = (u32be 11 ++ (u64be a ++ (u64be b ++ (u64be c ++ u64be d)))).drop 20 := by
          rw [List.drop_drop]
        rw [← h1, e12, List.drop_left' (length_u64be b)]
      have e28 : (u32be 11 ++ (u64be a ++ (u64be b ++ (u64be c ++ u64be d)))).drop 28
          = u64be d := by
        have h1 : ((u32be 11 ++ (u64be a ++ (u64be b ++ (u64be c ++ u64be d)))).drop 20).drop 8
            = (u32be 11 ++ (u64be a ++ (u64be b ++ (u64be c ++ u64be d)))).drop 28 := by
          rw [List.drop_drop]
        rw [← h1, e20, List.drop_left' (length_u64be c)]
      rw [List.take_left' (length_u32be 11), List.drop_left' (length_u32be 11)]
      norm_num [U32MOD, readU32_u32be, length_u32be, length_u64be,
        List.length_append, List.range_succ]
      rw [e12, e20, e28]
      rw [List.take_left' (length_u64be b), List.take_left' (length_u64be c)]
      norm_num [readU64_u64be, take8_u64be]
      refine ⟨?_, ?_, ?_, ?_⟩ <;> (simp only [U64MOD] at *; omega)
  | I256 limbs => simp [ScVal.roundtrips] at hv
  | Bytes d =>
    have hb : d.length < 4294967296 := by simpa [ScVal.roundtrips, U32MOD] using hv
    have hassoc : (ScVal.Bytes d).to_xdr
        = u32be 13 ++ (u32be d.length ++ (d ++ xdrPad d.length)) := by
      simp [ScVal.to_xdr, List.append_assoc]
    rw [hassoc]
    unfold parse_scval_from_xdr
    have e8 : (u32be 13 ++ (u32be d.length ++ (d ++ xdrPad d.length))).drop 8
        = d ++ xdrPad d.length := by
      have h1 : ((u32be 13 ++ (u32be d.length ++ (d ++ xdrPad d.length))).drop 4).drop 4
          = (u32be 13 ++ (u32be d.length ++ (d ++ xdrPad d.length))).drop 8 := by
        rw [List.drop_drop]
      rw [← h1, List.drop_left' (length_u32be 13), List.drop_left' (length_u32be _)]
    rw [List.take_left' (length_u32be 13), List.drop_left' (length_u32be 13),
        List.take_left' (length_u32be d.length), e8]
    norm_num [U32MOD, readU32_u32be, length_u32be, List.length_append]
    rw [Nat.mod_eq_of_lt hb]
    rw [if_neg (by omega), if_neg (by omega), List.take_left]
  | Str s =>
    have hb : utf8Valid s = true ∧ s.length < 4294967296 := by
      simpa [ScVal.roundtrips, U32MOD] using hv
    have hassoc : (ScVal.Str s).to_xdr
        = u32be 14 ++ (u32be s.length ++ (s ++ xdrPad s.length)) := by
      simp [ScVal.to_xdr, List.append_assoc]
    rw [hassoc]
    unfold parse_scval_from_xdr
    have e8 : (u32be 14 ++ (u32be s.length ++ (s ++ xdrPad s.length))).drop 8
        = s ++ xdrPad s.length := by
      have h1 : ((u32be 14 ++ (u32be s.length ++ (s ++ xdrPad s.length))).drop 4).drop 4
          = (u32be 14 ++ (u32be s.length ++ (s ++ xdrPad s.length))).drop 8 := by
        rw [List.drop_drop]
      rw [← h1, List.drop_left' (length_u32be 14), List.drop_left' (length_u32be _)]
    rw [List.take_left' (length_u32be 14), List.drop_left' (length_u32be 14),
        List.take_left' (length_u32be s.length), e8]
    norm_num [U32MOD, readU32_u32be, length_u32be, List.length_append]
    rw [Nat.mod_eq_of_lt hb.2]
    rw [if_neg (by omega), if_neg (by omega), List.take_left,
        fromUtf8OrHex, if_pos hb.1]
  | Symbol s =>
    have hb : utf8Valid s = true ∧ s.length < 4294967296 := by
      simpa [ScVal.roundtrips, U32MOD] using hv
    have hassoc : (ScVal.Symbol s).to_xdr
        = u32be 15 ++ (u32be s.length ++ (s ++ xdrPad s.length)) := by
      simp [ScVal.to_xdr, List.append_assoc]
    rw [hassoc]
    unfold parse_scval_from_xdr
    have e8 : (u32be 15 ++ (u32be s.length ++ (s ++ xdrPad s.length))).drop 8
        = s ++ xdrPad s.length := by
      have h1 : ((u32be 15 ++ (u32be s.length ++ (s ++ xdrPad s.length))).drop 4).drop 4
          = (u32be 15 ++ (u32be s.length ++ (s ++ xdrPad s.length))).drop 8 := by
        rw [List.drop_drop]
      rw [← h1, List.drop_left' (length_u32be 15), List.drop_left' (length_u32be _)]
    rw [List.take_left' (length_u32be 15), List.drop_left' (length_u32be 15),
        List.take_left' (length_u32be s.length), e8]
    norm_num [U32MOD, readU32_u32be, length_u32be, List.length_append]
    rw [Nat.mod_eq_of_lt hb.2]
    rw [if_neg (by omega), if_neg (by omega), List.take_left,
        fromUtf8OrHex, if_pos hb.1]
  | Address a => simp [ScVal.roundtrips] at hv
  | Vec items => simp [ScVal.roundtrips] at hv
  | Map entries => simp [ScVal.roundtrips] at hv

/-- C1 counterexample: an `I256` value does not round-trip — the parser
has no branch for discriminant 12 and falls back to a raw-bytes value. -/
theorem scval_i256_no_roundtrip :
    parse_scval_from_xdr (ScVal.I256 [0, 0, 0, 0]).to_xdr
      ≠ .ok (ScVal.I256 [0, 0, 0, 0]) := by
  intro h
  have h2 : ScVal.Bytes ((ScVal.I256 [0, 0, 0, 0]).to_xdr)
      = ScVal.I256 [0, 0, 0, 0] := Except.ok.inj h
  exact ScVal.noConfusion h2

/-- Witness for C1 (amended) at `U32 42`. -/
theorem scval_xdr_roundtrip_witness :
    parse_scval_from_xdr (ScVal.U32 42).to_xdr = .ok (ScVal.U32 42) :=
  scval_xdr_roundtrip (ScVal.U32 42) (by decide)

/-! ## Claim C10: totality boundary of `encode_abi_values` -/

/-- Dropping `32 + m` steps through a 32-byte head slot. -/
theorem drop_slot32 {l1 l2 : List Nat} (h : l1.length = 32) (m : Nat) :
    (l1 ++ l2).drop (32 + m) = l2.drop m := by
  have h1 : ((l1 ++ l2).drop 32).drop m = (l1 ++ l2).drop (32 + m) := by
    rw [List.drop_drop, Nat.add_comm]
  rw [← h1, List.drop_left' h]

/-- The head slots `encodeLoop` writes are 32 bytes each. -/
theorem encodeLoop_fst_length (values : List (List Nat)) (hs : Nat) :
    ∀ (ps : List AbiParam) (k dlen : Nat) (H D : List Nat),
      encodeLoop values hs (List.enumFrom k ps) dlen = some (H, D) →
      H.length = 32 * ps.length := by
  intro ps
  induction ps with
  | nil => intro k dlen H D h; cases h; rfl
  | cons p rest ih =>
    intro k dlen H D h
    simp only [List.enumFrom, encodeLoop] at h
    by_cases hdyn : is_dynamic_type p.param_type = true
    · rw [if_pos hdyn] at h
      cases hget : values.get? k with
      | none => simp only [hget] at h; exact Option.noConfusion h
      | some v =>
        simp only [hget] at h
        cases hrec : encodeLoop values hs (List.enumFrom (k + 1) rest)
            (dlen + (List.replicate 24 0 ++ u64be v.length ++ v ++
              padTo32 v.length).length) with
        | none => simp only [hrec] at h; exact Option.noConfusion h
        | some r =>
          obtain ⟨H1, D1⟩ := r
          simp only [hrec] at h
          cases h
          have hlen1 := ih (k + 1) _ _ _ hrec
          rw [List.length_append, List.length_append, hlen1,
            List.length_replicate, length_u64be, List.length_cons]
          ring
    · rw [if_neg hdyn] at h
      cases hrec : encodeLoop values hs (List.enumFrom (k + 1) rest) dlen with
      | none => simp only [hrec] at h; exact Option.noConfusion h
      | some r =>
        obtain ⟨H1, D1⟩ := r
        simp only [hrec] at h
        cases h
        have hlen1 := ih (k + 1) dlen _ _ hrec
        rw [List.length_append, hlen1, List.length_cons]
        by_cases hk : k < values.length
        · rw [if_pos hk]
          by_cases h32 : 32 ≤ (values.getD k []).length
          · rw [if_pos h32, List.length_take]
            omega
          · rw [if_neg h32, List.length_append, List.length_replicate]
            omega
        · rw [if_neg hk, List.length_replicate]
          ring

/-- Encoding succeeds when every dynamic parameter has a value. -/
theorem encodeLoop_isSome (values : List (List Nat)) (hs : Nat) :
    ∀ (ps : List AbiParam) (k dlen : Nat),
      (∀ j p, ps.get? j = some p → is_dynamic_type p.param_type = true →
        k + j < values.length) →
      (encodeLoop values hs (List.enumFrom k ps) dlen).isSome = true := by
  intro ps
  induction ps with
  | nil => intro k dlen _; rfl
  | cons p rest ih =>
    intro k dlen hcov
    simp only [List.enumFrom, encodeLoop]
    by_cases hdyn : is_dynamic_type p.param_type = true
    · rw [if_pos hdyn]
      have hk : k < values.length := by
        have := hcov 0 p rfl hdyn
        omega
      cases hget : values.get? k with
      | none =>
        exfalso
        have := List.get?_eq_none.mp hget
        omega
      | some v =>
        simp only [hget]
        have hrest := ih (k + 1)
          (dlen + (List.replicate 24 0 ++ u64be v.length ++ v ++
            padTo32 v.length).length)
          (fun j q hq hdq => by
            have := hcov (j + 1) q (by simpa using hq) hdq
            omega)
        cases hrec : encodeLoop values hs (List.enumFrom (k + 1) rest)
            (dlen + (List.replicate 24 0 ++ u64be v.length ++ v ++
              padTo32 v.length).length) with
        | none => rw [hrec] at hrest; exact absurd hrest (by simp)
        | some r =>
          obtain ⟨H1, D1⟩ := r
          simp only [hrec]
          rfl
    · rw [if_neg hdyn]
      have hrest := ih (k + 1) dlen
        (fun j q hq hdq => by
          have := hcov (j + 1) q (by simpa using hq) hdq
          omega)
      cases hrec : encodeLoop values hs (List.enumFrom (k + 1) rest) dlen with
      | none => rw [hrec] at hrest; exact absurd hrest (by simp)
      | some r =>
        obtain ⟨H1, D1⟩ := r
        simp only [hrec]
        rfl

/-- Encoding panics (returns `none`) as soon as some dynamic
parameter index has no value. -/
theorem encodeLoop_none (values : List (List Nat)) (hs : Nat) :
    ∀ (ps : List AbiParam) (k dlen j : Nat) (p : AbiParam),
      ps.get? j = some p → is_dynamic_type p.param_type = true →
      values.length ≤ k + j →
      encodeLoop values hs (List.enumFrom k ps) dlen = none := by
  intro ps
  induction ps with
  | nil => intro k dlen j p hj; exact absurd hj (by simp)
  | cons q rest ih =>
    intro k dlen j p hj hdyn hlen
    simp only [List.enumFrom, encodeLoop]
    cases j with
    | zero =>
      have hq : q = p := by simpa using hj
      subst hq
      rw [if_pos hdyn]
      have hnone : values.get? k = none := List.get?_eq_none.mpr (by omega)
      simp only [hnone]
    | succ j =>
      have hj2 : rest.get? j = some p := by simpa using hj
      by_cases hdq : is_dynamic_type q.param_type = true
      · rw [if_pos hdq]
        cases hget : values.get? k with
        | none => simp only [hget]
        | some v =>
          simp only [hget]
          rw [ih (k + 1) _ j p hj2 hdyn (by omega)]
      · rw [if_neg hdq]
        rw [ih (k + 1) dlen j p hj2 hdyn (by omega)]

/-- A static parameter with no value produces an all-zero head slot. -/
theorem encodeLoop_static_slot (values : List (List Nat)) (hs : Nat) :
    ∀ (ps : List AbiParam) (k dlen : Nat) (H D : List Nat) (j : Nat)
      (p : AbiParam),
      encodeLoop values hs (List.enumFrom k ps) dlen = some (H, D) →
      ps.get? j = some p → is_dynamic_type p.param_type = false →
      values.length ≤ k + j →
      (H.drop (32 * j)).take 32 = List.replicate 32 0 := by
  intro ps
  induction ps with
  | nil => intro k dlen H D j p _ hj; exact absurd hj (by simp)
  | cons q rest ih =>
    intro k dlen H D j p h hj hstat hlen
    simp only [List.enumFrom, encodeLoop] at h
    by_cases hdq : is_dynamic_type q.param_type = true
    · rw [if_pos hdq] at h
      cases hget : values.get? k with
      | none => simp only [hget] at h; exact Option.noConfusion h
      | some v =>
        simp only [hget] at h
        cases hrec : encodeLoop values hs (List.enumFrom (k + 1) rest)
            (dlen + (List.replicate 24 0 ++ u64be v.length ++ v ++
              padTo32 v.length).length) with
        | none => simp only [hrec] at h; exact Option.noConfusion h
        | some r =>
          obtain ⟨H1, D1⟩ := r
          simp only [hrec] at h
          cases h
          cases j with
          | zero =>
            have hq : q = p := by simpa using hj
            subst hq
            rw [hstat] at hdq
            exact absurd hdq (by simp)
          | succ j =>
            have hj2 : rest.get? j = some p := by simpa using hj
            have h32 : (List.replicate 24 0 ++ u64be (hs + dlen)).length = 32 := by
              simp [length_u64be]
            rw [show 32 * (j + 1) = 32 + 32 * j by ring, drop_slot32 h32]
            exact ih (k + 1) _ _ _ j p hrec hj2 hstat (by omega)
    · rw [if_neg hdq] at h
      cases hrec : encodeLoop values hs (List.enumFrom (k + 1) rest) dlen with
      | none => simp only [hrec] at h; exact Option.noConfusion h
      | some r =>
        obtain ⟨H1, D1⟩ := r
        simp only [hrec] at h
        cases h
        cases j with
        | zero =>
          have hk : ¬ k < values.length := by omega
          rw [if_neg hk]
          rw [Nat.mul_zero, List.drop_zero]
          exact List.take_left'
            (by simp : (List.replicate 32 (0 : Nat)).length = 32)
        | succ j =>
          have hj2 : rest.get? j = some p := by simpa using hj
          have h32 : (if k < values.length then
              (if 32 ≤ (values.getD k []).length then (values.getD k []).take 32
               else List.replicate (32 - (values.getD k []).length) 0 ++
                 values.getD k [])
              else List.replicate 32 0).length = 32 := by
            by_cases hk : k < values.length
            · rw [if_pos hk]
              by_cases hv32 : 32 ≤ (values.getD k []).length
              · rw [if_pos hv32, List.length_take]
                omega
              · rw [if_neg hv32, List.length_append, List.length_replicate]
                omega
            · rw [if_neg hk, List.length_replicate]
          rw [show 32 * (j + 1) = 32 + 32 * j by ring, drop_slot32 h32]
          exact ih (k + 1) dlen _ _ j p hrec hj2 hstat (by omega)

/-- C10: `encode_abi_values` succeeds whenever every dynamic parameter
index has a value; a dynamic parameter at an index with no value panics
(`none` — the unguarded `values[i]`), so the encoder is not total; and a
static parameter at an index with no value yields an all-zero 32-byte
head slot. -/
theorem encode_abi_values_totality :
    (∀ (values : List (List Nat)) (params : List AbiParam),
      (∀ i p, params.get? i = some p → is_dynamic_type p.param_type = true →
        i < values.length) →
      (encode_abi_values values params).isSome = true) ∧
    (∀ (values : List (List Nat)) (params : List AbiParam) (i : Nat)
       (p : AbiParam),
      params.get? i = some p → is_dynamic_type p.param_type = true →
      values.length ≤ i →
      encode_abi_values values params = none) ∧
    (∀ (values : List (List Nat)) (params : List AbiParam) (i : Nat)
       (p : AbiParam) (out : List Nat),
      encode_abi_values values params = some out →
      params.get? i = some p → is_dynamic_type p.param_type = false →
      values.length ≤ i →
      (out.drop (32 * i)).take 32 = List.replicate 32 0) := by
  refine ⟨?_, ?_, ?_⟩
  · intro values params hcov
    unfold encode_abi_values
    have h := encodeLoop_isSome values (params.length * 32) params 0 0
      (fun j p hj hd => by simpa using hcov j p hj hd)
    rw [show params.enum = List.enumFrom 0 params from rfl]
    cases hr : encodeLoop values (params.length * 32)
        (List.enumFrom 0 params) 0 with
    | none => rw [hr] at h; exact absurd h (by simp)
    | some r => simp [hr]
  · intro values params i p hi hd hlen
    unfold encode_abi_values
    rw [show params.enum = List.enumFrom 0 params from rfl,
      encodeLoop_none values (params.length * 32) params 0 0 i p hi hd
        (by omega)]
    rfl
  · intro values params i p out hout hi hd hlen
    unfold encode_abi_values at hout
    rw [show params.enum = List.enumFrom 0 params from rfl] at hout
    cases hr : encodeLoop values (params.length * 32)
        (List.enumFrom 0 params) 0 with
    | none => rw [hr] at hout; exact Option.noConfusion hout
    | some r =>
      obtain ⟨H1, D1⟩ := r
      rw [hr] at hout
      have hout2 : H1 ++ D1 = out := by simpa using hout
      subst hout2
      have hHlen := encodeLoop_fst_length values (params.length * 32) params
        0 0 H1 D1 hr
      have hip : i < params.length := by
        by_contra hc
        rw [List.get?_eq_none.mpr (by omega)] at hi
        exact Option.noConfusion hi
      have hslot := encodeLoop_static_slot values (params.length * 32) params
        0 0 H1 D1 i p hr hi hd (by omega)
      have hd1 : (H1 ++ D1).drop (32 * i) = H1.drop (32 * i) ++ D1 := by
        rw [List.drop_append_eq_append_drop,
          show 32 * i - H1.length = 0 by omega, List.drop_zero]
      rw [hd1, List.take_append_eq_append_take]
      have hlen2 : 32 ≤ (H1.drop (32 * i)).length := by
        rw [List.length_drop]
        omega
      rw [show 32 - (H1.drop (32 * i)).length = 0 by omega, List.take_zero,
        List.append_nil]
      exact hslot

/-! ## Claim C2: ABI encode/decode round-trip -/

/-- The head and dynamic regions `encode_abi_values` produces, computed
structurally over (chunk, parameter) pairs; `encodeLoop_eq_encSpec`
connects it to the source embedding. -/
def encSpec (hs : Nat) : List (List Nat × AbiParam) → Nat → List Nat × List Nat
  | [], _ => ([], [])
  | (v, p) :: rest, dlen =>
    if is_dynamic_type p.param_type then
      let entry := List.replicate 24 0 ++ u64be v.length ++ v ++ padTo32 v.length
      let r := encSpec hs rest (dlen + entry.length)
      (List.replicate 24 0 ++ u64be (hs + dlen) ++ r.1, entry ++ r.2)
    else
      let head :=
        if 32 ≤ v.length then v.take 32
        else List.replicate (32 - v.length) 0 ++ v
      let r := encSpec hs rest dlen
      (head ++ r.1, r.2)

/-- Per-parameter side condition for the ABI round-trip: a dynamic
parameter must have ABI type "bytes" or "string" (arrays and tuples are
decoded with their length prefix, so they cannot round-trip), and a
static parameter chunk must be exactly one 32-byte word. -/
def pairOK (vp : List Nat × AbiParam) : Prop :=
  if is_dynamic_type vp.2.param_type = true then
    vp.2.param_type = tyBytes ∨ vp.2.param_type = tyString
  else vp.1.length = 32

instance (vp : List Nat × AbiParam) : Decidable (pairOK vp) := by
  unfold pairOK
  infer_instance

/-- Loop `encodeLoop` agrees with `encSpec` when all indices are in range. -/
theorem encodeLoop_eq_encSpec (values : List (List Nat)) (hs : Nat) :
    ∀ (ps : List AbiParam) (k dlen : Nat),
      k + ps.length ≤ values.length →
      encodeLoop values hs (List.enumFrom k ps) dlen
        = some (encSpec hs ((values.drop k).zip ps) dlen) := by
  intro ps
  induction ps with
  | nil =>
    intro k dlen _
    simp [List.enumFrom, encodeLoop, encSpec]
  | cons p rest ih =>
    intro k dlen hb
    have hk : k < values.length := by
      have := List.length_cons p rest
      omega
    rw [List.drop_eq_getElem_cons hk]
    simp only [List.enumFrom, encodeLoop, List.zip_cons_cons, encSpec]
    have hget : values.get? k = some values[k] := by
      rw [List.get?_eq_getElem?, List.getElem?_eq_getElem hk]
    by_cases hdyn : is_dynamic_type p.param_type = true
    · rw [if_pos hdyn, if_pos hdyn]
      simp only [hget]
      rw [ih (k + 1) _ (by simp at hb ⊢; omega)]
      rfl
    · rw [if_neg hdyn, if_neg hdyn]
      rw [if_pos hk, List.getD_eq_getElem values [] hk]
      rw [ih (k + 1) dlen (by simp at hb ⊢; omega)]
      rfl

/-- The head region of `encSpec` is 32 bytes per pair. -/
theorem encSpec_fst_length (hs : Nat) :
    ∀ (pairs : List (List Nat × AbiParam)) (dlen : Nat),
      (encSpec hs pairs dlen).1.length = 32 * pairs.length := by
  intro pairs
  induction pairs with
  | nil => intro dlen; rfl
  | cons vp rest ih =>
    obtain ⟨v, p⟩ := vp
    intro dlen
    simp only [encSpec]
    by_cases hdyn : is_dynamic_type p.param_type = true
    · rw [if_pos hdyn]
      simp only [List.length_append, List.length_replicate, length_u64be,
        List.length_cons, ih]
      ring
    · rw [if_neg hdyn]
      by_cases h32 : 32 ≤ v.length
      · rw [if_pos h32]
        simp only [List.length_append, List.length_take, List.length_cons, ih]
        omega
      · rw [if_neg h32]
        simp only [List.length_append, List.length_replicate,
          List.length_cons, ih]
        omega

/-- Dropping 8 bytes of `u64be x` leaves nothing. -/
theorem drop8_u64be (x : Nat) : (u64be x).drop 8 = [] := rfl

/-- Decoding walks the heads `encSpec` laid out and recovers the chunks. -/
theorem decodeLoop_of_encSpec (data : List Nat) (hs : Nat)
    (hdata : data.length < U64MOD) :
    ∀ (pairs : List (List Nat × AbiParam)) (off dlen : Nat)
      (rest1 rest2 : List Nat),
      (∀ vp ∈ pairs, pairOK vp) →
      data.drop off = (encSpec hs pairs dlen).1 ++ rest1 →
      data.drop (hs + dlen) = (encSpec hs pairs dlen).2 ++ rest2 →
      decodeParamsLoop data (pairs.map Prod.snd) off
        = .ok (pairs.map Prod.fst) := by
  intro pairs
  induction pairs with
  | nil => intro off dlen r1 r2 _ _ _; rfl
  | cons vp rest ih =>
    obtain ⟨v, p⟩ := vp
    intro off dlen rest1 rest2 hOK h1 h2
    have hpOK : pairOK (v, p) := hOK (v, p) (by simp)
    have hrOK : ∀ q ∈ rest, pairOK q := fun q hq => hOK q (by simp [hq])
    simp only [List.map_cons, encSpec] at h1 h2 ⊢
    by_cases hdyn : is_dynamic_type p.param_type = true
    · rw [if_pos hdyn] at h1 h2
      simp only [pairOK, hdyn, if_pos] at hpOK
      have hlen1 := congrArg List.length h1
      have hlen2 := congrArg List.length h2
      simp only [List.length_drop, List.length_append, List.length_replicate,
        length_u64be] at hlen1 hlen2
      -- bounds
      have hoff32 : off + 32 ≤ data.length := by omega
      have hhd : hs + dlen + 32 + v.length ≤ data.length := by omega
      have hvlen : v.length < U64MOD := by omega
      have hhdlt : hs + dlen + 32 < U64MOD := by omega
      -- normalize shapes to right-associated appends
      simp only [List.append_assoc] at h1 h2
      -- the head slot
      have hslot : (data.drop off).take 32
          = List.replicate 24 0 ++ u64be (hs + dlen) := by
        rw [h1, ← List.append_assoc (List.replicate 24 0) (u64be (hs + dlen))]
        exact List.take_left' (by simp [length_u64be])
      have hslice1 : rustSlice data off (off + 32)
          = some (List.replicate 24 0 ++ u64be (hs + dlen)) := by
        unfold rustSlice
        rw [if_pos ⟨by omega, by omega⟩,
          show off + 32 - off = 32 by omega, hslot]
      have hread1 : read_u256_as_usize
          (List.replicate 24 0 ++ u64be (hs + dlen)) = .ok (hs + dlen) := by
        unfold read_u256_as_usize
        rw [if_neg (by simp [length_u64be])]
        rw [List.drop_left' (by simp : (List.replicate 24 (0 : Nat)).length = 24),
          take8_u64be, readBE_u64be, Nat.mod_eq_of_lt (by omega)]
      -- the dynamic entry
      have hentry32 : (data.drop (hs + dlen)).take 32
          = List.replicate 24 0 ++ u64be v.length := by
        rw [h2, ← List.append_assoc (List.replicate 24 0) (u64be v.length)]
        exact List.take_left' (by simp [length_u64be])
      have hread2 : read_u256_as_usize
          (List.replicate 24 0 ++ u64be v.length) = .ok v.length := by
        unfold read_u256_as_usize
        rw [if_neg (by simp [length_u64be])]
        rw [List.drop_left' (by simp : (List.replicate 24 (0 : Nat)).length = 24),
          take8_u64be, readBE_u64be, Nat.mod_eq_of_lt (by omega)]
      have hdrop32 : (data.drop (hs + dlen)).drop 32
          = v ++ (padTo32 v.length ++
              ((encSpec hs rest (dlen + (List.replicate 24 0 ++ u64be v.length ++
                v ++ padTo32 v.length).length)).2 ++ rest2)) := by
        rw [h2, ← List.append_assoc (List.replicate 24 0) (u64be v.length)]
        exact List.drop_left' (by simp [length_u64be])
      have hvout : (data.drop (hs + dlen + 32)).take v.length = v := by
        have e : data.drop (hs + dlen + 32) = (data.drop (hs + dlen)).drop 32 := by
          rw [List.drop_drop]
        rw [e, hdrop32]
        exact List.take_left v _
      have hdd : decode_dynamic_param data (hs + dlen) p.param_type = .ok v := by
        unfold decode_dynamic_param
        have hw1 : wrapAdd (hs + dlen) 32 = hs + dlen + 32 :=
          Nat.mod_eq_of_lt (by omega)
        have hcond : (p.param_type == tyBytes || p.param_type == tyString)
            = true := by
          rcases hpOK with h | h <;> simp [h]
        rw [hw1, if_neg (by omega), if_pos hcond]
        have hslice2 : rustSlice data (hs + dlen) (hs + dlen + 32)
            = some (List.replicate 24 0 ++ u64be v.length) := by
          unfold rustSlice
          rw [if_pos ⟨by omega, by omega⟩,
            show hs + dlen + 32 - (hs + dlen) = 32 by omega, hentry32]
        simp only [hslice2, hread2]
        have hw2 : wrapAdd (hs + dlen + 32) v.length
            = hs + dlen + 32 + v.length := Nat.mod_eq_of_lt (by omega)
        rw [hw2, if_neg (by omega)]
        have hslice3 : rustSlice data (hs + dlen + 32)
            (hs + dlen + 32 + v.length) = some v := by
          unfold rustSlice
          rw [if_pos ⟨by omega, by omega⟩,
            show hs + dlen + 32 + v.length - (hs + dlen + 32) = v.length
              by omega, hvout]
        simp only [hslice3]
      -- the decode step
      simp only [decodeParamsLoop]
      rw [if_pos hdyn, if_neg (by omega)]
      simp only [hslice1, hread1, hdd]
      -- recursion
      have h1n : data.drop (off + 32)
          = (encSpec hs rest (dlen + (List.replicate 24 0 ++ u64be v.length ++
              v ++ padTo32 v.length).length)).1 ++ rest1 := by
        have e : data.drop (off + 32) = (data.drop off).drop 32 := by
          rw [List.drop_drop]
        rw [e, h1, ← List.append_assoc (List.replicate 24 0) (u64be (hs + dlen))]
        exact List.drop_left' (by simp [length_u64be])
      have h2n : data.drop (hs + (dlen + (List.replicate 24 0 ++
            u64be v.length ++ v ++ padTo32 v.length).length))
          = (encSpec hs rest (dlen + (List.replicate 24 0 ++ u64be v.length ++
              v ++ padTo32 v.length).length)).2 ++ rest2 := by
        have e : data.drop (hs + (dlen + (List.replicate 24 0 ++
              u64be v.length ++ v ++ padTo32 v.length).length))
            = (data.drop (hs + dlen)).drop ((List.replicate 24 0 ++
              u64be v.length ++ v ++ padTo32 v.length).length) := by
          rw [List.drop_drop]
          congr 1
          omega
        rw [e]
        have h2x : data.drop (hs + dlen)
            = (List.replicate 24 0 ++ u64be v.length ++ v ++ padTo32 v.length) ++
              ((encSpec hs rest (dlen + (List.replicate 24 0 ++ u64be v.length ++
                v ++ padTo32 v.length).length)).2 ++ rest2) := by
          rw [h2]
          simp [List.append_assoc]
        rw [h2x]
        exact List.drop_left _ _
      rw [ih (off + 32) _ rest1 rest2 hrOK h1n h2n]
    · rw [if_neg hdyn] at h1 h2
      have hstat : v.length = 32 := by
        simpa [pairOK, hdyn] using hpOK
      rw [if_pos (by omega : 32 ≤ v.length),
        show v.take 32 = v by rw [← hstat]; exact List.take_length v] at h1
      have hlen1 := congrArg List.length h1
      simp only [List.length_drop, List.length_append, hstat] at hlen1
      have hoff32 : off + 32 ≤ data.length := by omega
      simp only [List.append_assoc] at h1
      have hslot : (data.drop off).take 32 = v := by
        rw [h1]
        exact List.take_left' hstat
      simp only [decodeParamsLoop]
      rw [if_neg hdyn, if_neg (by omega)]
      have hslice1 : rustSlice data off (off + 32) = some v := by
        unfold rustSlice
        rw [if_pos ⟨by omega, by omega⟩,
          show off + 32 - off = 32 by omega, hslot]
      simp only [hslice1]
      have h1n : data.drop (off + 32)
          = (encSpec hs rest dlen).1 ++ rest1 := by
        have e : data.drop (off + 32) = (data.drop off).drop 32 := by
          rw [List.drop_drop]
        rw [e, h1]
        exact List.drop_left' hstat
      rw [ih (off + 32) dlen rest1 rest2 hrOK h1n h2]

/-- C2 (amended): encoding then decoding reproduces the original chunks
whenever every static chunk is exactly one 32-byte word, every dynamic
parameter has ABI type "bytes" or "string", and the encoding fits below
`2^64` bytes. -/
theorem abi_roundtrip (values : List (List Nat)) (params : List AbiParam)
    (hlen : values.length = params.length)
    (hOK : ∀ vp ∈ values.zip params, pairOK vp)
    (hsize : ((encode_abi_values values params).getD []).length < U64MOD) :
    (encode_abi_values values params).isSome = true ∧
    decode_abi_params ((encode_abi_values values params).getD []) params
      = .ok values := by
  have henc := encodeLoop_eq_encSpec values (params.length * 32) params 0 0
    (by omega)
  rw [List.drop_zero] at henc
  have hencv : encode_abi_values values params
      = some ((encSpec (params.length * 32) (values.zip params) 0).1 ++
              (encSpec (params.length * 32) (values.zip params) 0).2) := by
    unfold encode_abi_values
    rw [show params.enum = List.enumFrom 0 params from rfl, henc]
    rfl
  rw [hencv] at hsize ⊢
  simp only [Option.getD_some] at hsize ⊢
  refine ⟨rfl, ?_⟩
  have hmf : (values.zip params).map Prod.fst = values :=
    List.map_fst_zip values params (le_of_eq hlen)
  have hms : (values.zip params).map Prod.snd = params :=
    List.map_snd_zip values params (le_of_eq hlen.symm)
  by_cases hnil : params.length = 0
  · have hv : values = [] := List.length_eq_zero.mp (by omega)
    have hpp : params = [] := List.length_eq_zero.mp hnil
    subst hv hpp
    rfl
  · unfold decode_abi_params
    rw [if_neg (by intro hc; exact hnil hc.2)]
    have hzlen : (values.zip params).length = params.length := by
      rw [List.length_zip]
      omega
    have hS1 : (encSpec (params.length * 32) (values.zip params) 0).1.length
        = params.length * 32 := by
      rw [encSpec_fst_length, hzlen]
      ring
    have h2 : ((encSpec (params.length * 32) (values.zip params) 0).1 ++
        (encSpec (params.length * 32) (values.zip params) 0).2).drop
          (params.length * 32 + 0)
        = (encSpec (params.length * 32) (values.zip params) 0).2 ++ [] := by
      rw [Nat.add_zero, List.append_nil]
      exact List.drop_left' hS1
    have hd := decodeLoop_of_encSpec
      ((encSpec (params.length * 32) (values.zip params) 0).1 ++
        (encSpec (params.length * 32) (values.zip params) 0).2)
      (params.length * 32) hsize (values.zip params) 0 0
      ((encSpec (params.length * 32) (values.zip params) 0).2) [] hOK rfl h2
    rw [hms, hmf] at hd
    exact hd

/-- An `AbiParam` of ABI type "uint256" (static). -/
def paramU256 : AbiParam := .mk [] tyU256 false none

/-- C2 counterexample: a static chunk shorter than 32 bytes (here empty)
decodes back as the full zero-padded word, not the original chunk. -/
theorem abi_roundtrip_cex :
    (encode_abi_values [[]] [paramU256]).map
      (fun out => decode_abi_params out [paramU256])
      = some (.ok [List.replicate 32 0]) ∧
    [List.replicate 32 (0 : Nat)] ≠ [([] : List Nat)] :=
  ⟨rfl, by decide⟩

/-- Witness for C2 (amended): one 32-byte static chunk plus one dynamic
"bytes" chunk round-trip. -/
theorem abi_roundtrip_witness :
    (encode_abi_values [List.replicate 32 7, [9, 9, 9]]
      [paramU256, paramBytes]).isSome = true ∧
    decode_abi_params ((encode_abi_values [List.replicate 32 7, [9, 9, 9]]
      [paramU256, paramBytes]).getD []) [paramU256, paramBytes]
      = .ok [List.replicate 32 7, [9, 9, 9]] :=
  by
    refine abi_roundtrip [List.replicate 32 7, [9, 9, 9]]
      [paramU256, paramBytes] rfl ?_ ?_ <;> decide

/-- Witness for C10: a dynamic parameter with no value panics, and with a
value present the encoder succeeds. -/
theorem encode_abi_values_totality_witness :
    encode_abi_values [] [paramBytes] = none ∧
    (encode_abi_values [[1]] [paramBytes]).isSome = true :=
  ⟨encode_abi_values_totality.2.1 [] [paramBytes] 0 paramBytes rfl (by rfl)
      (by norm_num),
   encode_abi_values_totality.1 [[1]] [paramBytes]
      (fun i p hi hd => by
        cases i with
        | zero => norm_num
        | succ n => simp at hi)⟩

end TVA
